import Mathlib

/-!
Verification development for the token-balance subsystem of the
`tokenchain/eth-client` repository (package `eth`): the decimal renderer
in `common_tool.go` (`bigIntString`, `bigIntFloat`, `bigPow`, `clean`,
`symbolFix`, `init_token_types`), the report type and its accessors in
`balance.go` (`TokenBalance`, `ETHString`, `BalanceString`, `ToJSON`),
and the orchestration `GetTokenBalance` in `client.go`.

Modelling conventions:
* `math/big.Int` values are `ℤ`; a nil `*big.Int` pointer is `Option ℤ`
  with `none` for nil.
* Go panics (nil dereference, out-of-range index) are modelled by
  `Option`-valued functions returning `none`.
* `math/big.Float` values are modelled exactly: every `big.Float`
  arising in this code is created by `big.NewFloat(0)` and therefore
  has precision 53 and rounding mode ToNearestEven.  Its contents are
  dyadic rationals; `roundSig 53` below performs the rounding to a
  53-bit significand (nearest, ties to even) that `SetInt` and `Quo`
  apply.  `fmt.Sprintf("%0.<d>f", x)` on a `big.Float` prints the exact
  decimal expansion of the stored binary value rounded to `d` fractional
  digits (nearest, ties to even), which `fmtF` reproduces.
* Strings are `List Char`; the RPC reads issued by `GetTokenBalance`
  are supplied through an oracle record of `Except` outcomes.
-/

/-- Floor logarithm base 2 with explicit fuel, so that the kernel can
reduce it on literals; `log2F f n` equals `Nat.log2 n` whenever
`f ≥ n`. -/
def log2F : ℕ → ℕ → ℕ
  | 0, _ => 0
  | f + 1, n => if 2 ≤ n then log2F f (n / 2) + 1 else 0

/-- Floor logarithm base 2 of a natural number (0 for inputs 0 and 1). -/
def natLog2 (n : ℕ) : ℕ := log2F n n

/-- Integer power of two as a rational, for signed exponents. -/
def zpow2 (e : ℤ) : ℚ := if 0 ≤ e then (2 ^ e.toNat : ℚ) else 1 / (2 ^ (-e).toNat : ℚ)

/-- Floor of a rational as an integer (the denominator is positive, so
floored integer division of numerator by denominator is the floor). -/
def qfloor (q : ℚ) : ℤ := Int.fdiv q.num q.den

/-- Round a rational to the nearest integer, ties to even. -/
def rhe (q : ℚ) : ℤ :=
  let f := qfloor q
  let r := q - (f : ℚ)
  if r < 1 / 2 then f
  else if 1 / 2 < r then f + 1
  else if 2 ∣ f then f else f + 1

/-- Floor logarithm base 2 of a positive rational: first guess from the
bit lengths of numerator and denominator, then correct by comparison. -/
def qlog2 (q : ℚ) : ℤ :=
  let e0 : ℤ := (natLog2 q.num.natAbs : ℤ) - (natLog2 q.den : ℤ)
  if q < zpow2 e0 then e0 - 1
  else if zpow2 (e0 + 1) ≤ q then e0 + 1
  else e0

/-- Round a rational to a binary floating-point value with a `p`-bit
significand, rounding to nearest with ties to even.  This is the
rounding a `math/big.Float` of precision `p` (mode ToNearestEven)
applies when a value is stored into it. -/
def roundSig (p : ℕ) (q : ℚ) : ℚ :=
  if q = 0 then 0
  else
    let e : ℤ := qlog2 |q| - (p - 1 : ℕ)
    (rhe (q / zpow2 e) : ℚ) * zpow2 e

/-- Decimal digits of a natural number, least significant first, with
explicit fuel (`digitsF f n` is correct whenever `f ≥ n`). -/
def digitsF : ℕ → ℕ → List ℕ
  | 0, _ => []
  | f + 1, n => if n = 0 then [] else n % 10 :: digitsF f (n / 10)

/-- Base-10 character rendering of a natural number, as produced by
Go's integer formatting (most significant digit first, `"0"` for 0). -/
def natChars (n : ℕ) : List Char :=
  if n = 0 then ['0'] else ((digitsF n n).reverse).map (fun d => Char.ofNat (48 + d))

/-- Base-10 character rendering of an integer, as produced by
`math/big.Int.String` on a non-nil value. -/
def intChars (b : ℤ) : List Char :=
  if b < 0 then '-' :: natChars b.natAbs else natChars b.natAbs

/-- Fractional-part rendering: the digits of `n` left-padded with zeros
to exactly `d` characters, as `fmt` does for the fractional digits of
`%0.<d>f`. -/
def padLeft0 (d : ℕ) (n : ℕ) : List Char :=
  List.replicate (d - (natChars n).length) '0' ++ natChars n

/-- Embedding of `fmt.Sprintf("%0.<d>f", v)` applied to a `big.Float`
holding the exact (dyadic rational) value `v`: the decimal expansion of
`v` rounded to `d` fractional digits, nearest, ties to even.  With
precision 0 Go prints no decimal point. -/
def fmtF (v : ℚ) (d : ℕ) : List Char :=
  let n : ℕ := (rhe (|v| * 10 ^ d)).toNat
  let sign : List Char := if v < 0 then ['-'] else []
  if d = 0 then sign ++ natChars n
  else sign ++ natChars (n / 10 ^ d) ++ '.' :: padLeft0 d (n % 10 ^ d)

/-- Embedding of `bigPow` from `common_tool.go`: `r.Exp(r, b, nil)` on
`big.Int`, which yields 1 whenever the exponent is non-positive. -/
def bigPow (a b : ℤ) : ℤ := if b ≤ 0 then 1 else a ^ b.toNat

/-- Embedding of `bigIntFloat` from `common_tool.go`.  All three
`big.Float` temporaries are allocated by `big.NewFloat(0)` and hence
have precision 53: `bal.SetInt(balance)` rounds the balance,
`p.SetInt(pow)` rounds the scale power, and `bal.Quo(bal, p)` rounds
the quotient, each to 53 significand bits, ties to even. -/
def bigIntFloat (balance : ℤ) (decimals : ℤ) : ℚ :=
  if balance = 0 then 0
  else
    let bal := roundSig 53 (balance : ℚ)
    let p := roundSig 53 ((bigPow 10 decimals : ℤ) : ℚ)
    roundSig 53 (bal / p)

/-- Trailing-zero stripping, `bytes.TrimRight(s, "0")`. -/
def trimRight0 (s : List Char) : List Char :=
  (s.reverse.dropWhile (fun c => c = '0')).reverse

/-- Embedding of `clean` from `common_tool.go`.  After stripping
trailing `'0'` bytes the Go code indexes the first and last byte of the
trimmed slice; on an empty slice that indexing panics, modelled as
`none`.  A trimmed string ending in `'.'` gets a `'0'` appended, and a
trimmed string starting with `'.'` gets a `'0'` prepended. -/
def clean (s : List Char) : Option (List Char) :=
  let t := trimRight0 s
  if t = [] then none
  else
    let t1 := if t.getLast? = some '.' then t ++ ['0'] else t
    some (if t.head? = some '.' then '0' :: t1 else t1)

/-- Embedding of `bigIntString` from `common_tool.go` for a non-nil
balance: format the 53-bit float value of `bigIntFloat` with
`decimals` fractional digits and trim with `clean`.  (The repository
only calls it with non-negative `decimals`; a negative count would
produce an invalid `fmt` verb.) -/
def bigIntString (balance : ℤ) (decimals : ℤ) : Option (List Char) :=
  clean (fmtF (bigIntFloat balance decimals) decimals.toNat)

/-- Variant of `bigIntFloat` taking a possibly-nil `*big.Int`:
`balance.Sign()` on a nil pointer panics (`none`). -/
def bigIntFloatP (balance : Option ℤ) (decimals : ℤ) : Option ℚ :=
  match balance with
  | none => none
  | some b => some (bigIntFloat b decimals)

/-- Variant of `bigIntString` taking a possibly-nil `*big.Int`: the
nil-pointer panic of `bigIntFloat` propagates. -/
def bigIntStringP (balance : Option ℤ) (decimals : ℤ) : Option (List Char) :=
  (bigIntFloatP balance decimals).bind (fun v => clean (fmtF v decimals.toNat))

/-- Embedding of the well-known-token table built by `init_token_types`
in `common_tool.go`: symbol-to-address pairs (the checksummed EOS
contract address). -/
def init_token_types : List (String × String) :=
  [("EOS", "0x86Fa049857E0209aa7D9e616F7eb3b3B78ECfdb0")]

/-- Runtime contents of the package variable `token_list`.  Go runs
only functions literally named `init` automatically; `init_token_types`
has no caller anywhere in the repository, so at runtime `token_list`
remains the nil map, which ranges as empty. -/
def token_list_runtime : List (String × String) := []

/-- Embedding of `symbolFix` from `common_tool.go`, parameterised by
the contents of `token_list`: scan the table for an entry whose address
equals the (already checksummed) contract string and return its symbol,
else `"MISSING"`.  `common.HexToAddress(contract).String()` is the
identity on a checksummed address string, so the comparison is direct
string equality here. -/
def symbolFix (tl : List (String × String)) (contract : String) : String :=
  match tl.find? (fun kv => contract = kv.2) with
  | some kv => kv.1
  | none => "MISSING"

/-- Embedding of the `TokenBalance` struct from `balance.go`.
Addresses are kept as their checksummed string form; the two `*big.Int`
fields are `Option ℤ` (`none` = nil pointer). -/
structure TokenBalance where
  Contract : String
  Wallet : String
  Name : String
  Symbol : String
  Balance : Option ℤ
  ETH : Option ℤ
  Decimals : ℤ
  Block : ℤ
  InternalUserId : ℤ
  deriving DecidableEq

/-- Embedding of `(*TokenBalance).ETHString` from `balance.go`:
`bigIntString(tb.ETH, 18)`; a nil `ETH` panics inside `bigIntFloat`
(`balance.Sign()` dereferences nil), modelled as `none`. -/
def ETHString (tb : TokenBalance) : Option (List Char) :=
  bigIntStringP tb.ETH 18

/-- Embedding of `(*TokenBalance).BalanceString` from `balance.go`:
with `Decimals == 0` it returns `tb.Balance.String()` verbatim (a nil
`*big.Int` prints as `"<nil>"` there); otherwise it defers to
`bigIntString`, where a nil balance panics. -/
def BalanceString (tb : TokenBalance) : Option (List Char) :=
  if tb.Decimals = 0 then
    some (match tb.Balance with
      | none => ['<', 'n', 'i', 'l', '>']
      | some b => intChars b)
  else bigIntStringP tb.Balance tb.Decimals

/-- Outcomes of the external reads issued by `GetTokenBalance`
(`client.go`), one `Except` per call site, in program order:
contract instantiation (`newTokenCaller`), anchor block
(`BlockByNumber`), `token.Decimals`, native balance (`BalanceAt`),
token balance (`token.BalanceOf`), `token.Symbol`, `token.Name`. -/
structure EthOracle where
  newTokenCaller : Except String Unit
  blockByNumber : Except String ℤ
  decimals : Except String ℤ
  balanceAt : Except String ℤ
  balanceOf : Except String ℤ
  symbol : Except String String
  tokname : Except String String

/-- Embedding of `(*ClientTokenEth).GetTokenBalance` from `client.go`
(lines 771-831) as a function of the read outcomes.  The report starts
with `Wallet`/`Contract` from the arguments, `InternalUserId = -1` and
`Decimals = -1`.  Instantiation, anchor and decimals failures each
return the report as built so far together with the error; the native
balance read leaves `ETH` nil on failure, the token balance read
defaults `Balance` to zero on failure, the symbol read falls back to
`symbolFix` over the runtime `token_list`, and the name read falls back
to `"MISSING"`; after the decimals step errors are no longer
returned. -/
def GetTokenBalance (token_contract account_wallet : String) (o : EthOracle) :
    TokenBalance × Option String :=
  let tb : TokenBalance :=
    { Wallet := account_wallet, Contract := token_contract,
      InternalUserId := -1, Decimals := -1,
      Name := "", Symbol := "", Balance := none, ETH := none, Block := 0 }
  match o.newTokenCaller with
  | .error e => (tb, some e)
  | .ok _ =>
    match o.blockByNumber with
    | .error e => (tb, some e)
    | .ok bn =>
      let tb := { tb with Block := bn }
      match o.decimals with
      | .error e => (tb, some e)
      | .ok d =>
        let tb := { tb with Decimals := d }
        let tb :=
          match o.balanceAt with
          | .error _ => { tb with ETH := none }
          | .ok v => { tb with ETH := some v }
        let tb :=
          match o.balanceOf with
          | .error _ => { tb with Balance := some 0 }
          | .ok v => { tb with Balance := some v }
        let tb :=
          match o.symbol with
          | .error _ => { tb with Symbol := symbolFix token_list_runtime tb.Contract }
          | .ok s => { tb with Symbol := s }
        let tb :=
          match o.tokname with
          | .error _ => { tb with Name := "MISSING" }
          | .ok s => { tb with Name := s }
        (tb, none)

/-- JSON string quoting for the values serialised here (addresses,
symbols, rendered balances: none contain characters that Go's
`encoding/json` would escape). -/
def quoteJ (s : String) : String := "\"" ++ s ++ "\""

/-- Embedding of `json.Marshal` applied to the `TokenBalanceJson`
struct built by `ToJSON` (`client.go` lines 506-515, `balance.go` lines
32-45): the key/value pairs in struct declaration order, under the wire
names of the `json` tags; `name` and `symbol` carry `omitempty`, so Go
omits them exactly when the string is empty.  `BalanceString` and
`ETHString` are evaluated first; their panics propagate. -/
def jsonPairs (tb : TokenBalance) : Option (List (String × String)) :=
  (BalanceString tb).bind (fun bal =>
    (ETHString tb).bind (fun eth =>
      some ([("token", quoteJ tb.Contract), ("wallet", quoteJ tb.Wallet)]
        ++ (if tb.Name = "" then [] else [("name", quoteJ tb.Name)])
        ++ (if tb.Symbol = "" then [] else [("symbol", quoteJ tb.Symbol)])
        ++ [("balance", quoteJ (String.mk bal)),
            ("eth_balance", quoteJ (String.mk eth)),
            ("decimals", String.mk (intChars tb.Decimals)),
            ("block", String.mk (intChars tb.Block))])))

/-- Embedding of `(*TokenBalance).ToJSON` from `balance.go`: the JSON
object text assembled from `jsonPairs`. -/
def ToJSON (tb : TokenBalance) : Option String :=
  (jsonPairs tb).map (fun ps =>
    "\x7b" ++ String.intercalate "," (ps.map (fun kv => quoteJ kv.1 ++ ":" ++ kv.2)) ++ "\x7d")

/-- Base-10 value of a digit string. -/
def charsToNat (cs : List Char) : ℕ :=
  cs.foldl (fun a c => a * 10 + (c.toNat - 48)) 0

/-- Modelled from the spec: the round-trip reading of claim C1 /
spec §8 — take the digits before and after the single point,
concatenate them without the point, and restore trailing fractional
zero padding to `d` digits, giving the integer the string claims to
represent. -/
def decodeDecimal (s : List Char) (d : ℕ) : ℤ :=
  let intPart := s.takeWhile (fun c => ¬ c = '.')
  let fracPart := (s.dropWhile (fun c => ¬ c = '.')).drop 1
  (charsToNat intPart : ℤ) * 10 ^ d + (charsToNat fracPart : ℤ) * 10 ^ (d - fracPart.length)


/-- Shared concrete fixtures for witnesses and counterexamples. -/
def eosAddr : String := "0x86Fa049857E0209aa7D9e616F7eb3b3B78ECfdb0"

/-- Oracle in which every read succeeds. -/
def oracleAllOk : EthOracle :=
  { newTokenCaller := .ok (), blockByNumber := .ok 100, decimals := .ok 18,
    balanceAt := .ok 5, balanceOf := .ok 7, symbol := .ok "TKN",
    tokname := .ok "Tok" }

/-- Oracle in which only the decimals read fails. -/
def oracleDecimalsFail : EthOracle :=
  { oracleAllOk with decimals := .error "no decimals" }

/-- Oracle in which only the anchor (block) read fails. -/
def oracleAnchorFail : EthOracle :=
  { oracleAllOk with blockByNumber := .error "no block" }

/-- Oracle in which only the symbol read fails. -/
def oracleSymbolFail : EthOracle :=
  { oracleAllOk with symbol := .error "no symbol" }

/-- Oracle in which only the native-balance read fails. -/
def oracleEthFail : EthOracle :=
  { oracleAllOk with balanceAt := .error "no eth balance" }

/-- Report fixture: zero balance at zero decimals. -/
def tbBalanceZero : TokenBalance :=
  { Contract := "0xC", Wallet := "0xW", Name := "", Symbol := "",
    Balance := some 0, ETH := none, Decimals := 0, Block := 0,
    InternalUserId := -1 }

/-- Report fixture: balance 1500 at zero decimals. -/
def tbBalance1500 : TokenBalance :=
  { tbBalanceZero with Balance := some 1500 }

/-- Report fixture: metadata carrying the "MISSING" sentinel, with
renderable balances. -/
def tbMissingMeta : TokenBalance :=
  { Contract := "0xC", Wallet := "0xW", Name := "MISSING", Symbol := "MISSING",
    Balance := some 7, ETH := some 0, Decimals := 0, Block := 3,
    InternalUserId := -1 }

theorem digitsF_lt_ten (f : ℕ) : ∀ (n : ℕ), ∀ d ∈ digitsF f n, d < 10 := by
  induction f with
  | zero => intro n d hd; simp [digitsF] at hd
  | succ f ih =>
    intro n d hd
    by_cases hn : n = 0
    · simp [digitsF, hn] at hd
    · simp [digitsF, hn] at hd
      rcases hd with hd | hd
      · omega
      · exact ih _ _ hd

theorem digit_char_ne_dot : ∀ d < 10, Char.ofNat (48 + d) ≠ '.' := by decide

theorem natChars_ne_dot (n : ℕ) : ∀ c ∈ natChars n, c ≠ '.' := by
  intro c hc
  unfold natChars at hc
  by_cases hn : n = 0
  · simp [hn] at hc
    simp [hc]
  · simp [hn] at hc
    obtain ⟨d, hd, rfl⟩ := hc
    exact digit_char_ne_dot d (digitsF_lt_ten n n d hd)

theorem natChars_ne_nil (n : ℕ) : natChars n ≠ [] := by
  unfold natChars
  by_cases hn : n = 0
  · simp [hn]
  · obtain ⟨m, rfl⟩ : ∃ m, n = m + 1 := ⟨n - 1, by omega⟩
    simp [digitsF]

theorem padLeft0_ne_dot (d n : ℕ) : ∀ c ∈ padLeft0 d n, c ≠ '.' := by
  intro c hc
  unfold padLeft0 at hc
  rcases List.mem_append.mp hc with h | h
  · rw [List.eq_of_mem_replicate h]; decide
  · exact natChars_ne_dot n c h

theorem trimRight0_reverse_eq (s : List Char) :
    trimRight0 s = (s.reverse.dropWhile (fun c => c = '0')).reverse := rfl

theorem reverse_append_dot (I F : List Char) :
    (I ++ '.' :: F).reverse = F.reverse ++ '.' :: I.reverse := by
  simp

theorem trimRight0_append_dot_nil (I F : List Char) (h : trimRight0 F = []) :
    trimRight0 (I ++ '.' :: F) = I ++ ['.'] := by
  have hF : F.reverse.dropWhile (fun c => (c = '0' : Bool)) = [] := by
    have := congrArg List.reverse h
    simpa [trimRight0] using this
  unfold trimRight0
  rw [reverse_append_dot, List.dropWhile_append, hF]
  simp

theorem trimRight0_append_dot_ne (I F : List Char) (h : trimRight0 F ≠ []) :
    trimRight0 (I ++ '.' :: F) = I ++ '.' :: trimRight0 F := by
  have hF : F.reverse.dropWhile (fun c => (c = '0' : Bool)) ≠ [] := by
    intro hcon
    exact h (by simp [trimRight0, hcon])
  unfold trimRight0
  rw [reverse_append_dot, List.dropWhile_append]
  rw [if_neg (by simpa [List.isEmpty_iff] using hF)]
  simp


theorem clean_intfrac (I F : List Char) (hI : I ≠ []) (hInd : ∀ c ∈ I, c ≠ '.')
    (hF : ∀ c ∈ F, c ≠ '.') :
    ∃ r, clean (I ++ '.' :: F) = some r ∧ r ≠ [] ∧
      r.head? ≠ some '.' ∧ r.getLast? ≠ some '.' := by
  obtain ⟨c, I', rfl⟩ := List.exists_cons_of_ne_nil hI
  have hc : c ≠ '.' := hInd c (List.mem_cons_self c I')
  by_cases hT : trimRight0 F = []
  · have ht : trimRight0 ((c :: I') ++ '.' :: F) = (c :: I') ++ ['.'] :=
      trimRight0_append_dot_nil _ _ hT
    have h1 : ((c :: I') ++ ['.'] : List Char) ≠ [] := by simp
    have h2 : ((c :: I') ++ ['.']).getLast? = some '.' := List.getLast?_concat _
    have h3 : ¬(((c :: I') ++ ['.']).head? = some '.') := by simp [hc]
    refine ⟨((c :: I') ++ ['.']) ++ ['0'], ?_, by simp, ?_, ?_⟩
    · simp only [clean, ht]
      rw [if_neg h1, if_pos h2, if_neg h3]
    · simp [hc]
    · rw [List.getLast?_concat]
      decide
  · have ht : trimRight0 ((c :: I') ++ '.' :: F) = (c :: I') ++ '.' :: trimRight0 F :=
      trimRight0_append_dot_ne _ _ hT
    have hD : F.reverse.dropWhile (fun c => (c = '0' : Bool)) ≠ [] := by
      intro hcon
      exact hT (by simp [trimRight0, hcon])
    obtain ⟨x, D', hxD⟩ := List.exists_cons_of_ne_nil hD
    have hxF : x ∈ F := by
      have hsub : x ∈ F.reverse.dropWhile (fun c => (c = '0' : Bool)) := by
        rw [hxD]; exact List.mem_cons_self x D'
      exact List.mem_reverse.mp ((List.dropWhile_sublist _).subset hsub)
    have hx : x ≠ '.' := hF x hxF
    have hlast : (trimRight0 F).getLast? = some x := by
      rw [trimRight0_reverse_eq, List.getLast?_reverse, hxD]
      rfl
    have hlastT : ((c :: I') ++ '.' :: trimRight0 F).getLast? = some x := by
      rw [List.getLast?_append, List.getLast?_cons, hlast]
      rfl
    have h1 : ((c :: I') ++ '.' :: trimRight0 F : List Char) ≠ [] := by simp
    have h2 : ¬(((c :: I') ++ '.' :: trimRight0 F).getLast? = some '.') := by
      rw [hlastT]; simp [hx]
    have h3 : ¬(((c :: I') ++ '.' :: trimRight0 F).head? = some '.') := by simp [hc]
    refine ⟨(c :: I') ++ '.' :: trimRight0 F, ?_, by simp, by simp [hc], ?_⟩
    · simp only [clean, ht]
      rw [if_neg h1, if_neg h2, if_neg h3]
    · rw [hlastT]
      simp [hx]

theorem zpow2_pos (e : ℤ) : 0 < zpow2 e := by
  unfold zpow2
  split <;> positivity

theorem qfloor_nonneg {q : ℚ} (h : 0 ≤ q) : 0 ≤ qfloor q :=
  Int.fdiv_nonneg (Rat.num_nonneg.mpr h) (Int.natCast_nonneg _)

theorem rhe_nonneg {q : ℚ} (h : 0 ≤ q) : 0 ≤ rhe q := by
  have hf := qfloor_nonneg h
  simp only [rhe]
  split_ifs <;> omega

theorem roundSig_nonneg (p : ℕ) {q : ℚ} (h : 0 ≤ q) : 0 ≤ roundSig p q := by
  unfold roundSig
  split
  · exact le_refl 0
  · exact mul_nonneg
      (Int.cast_nonneg.mpr (rhe_nonneg (div_nonneg h (zpow2_pos _).le)))
      (zpow2_pos _).le

theorem bigPow_ten_nonneg (d : ℤ) : 0 ≤ bigPow 10 d := by
  unfold bigPow
  split
  · omega
  · positivity

theorem bigIntFloat_nonneg {balance : ℤ} (d : ℤ) (h : 0 ≤ balance) :
    0 ≤ bigIntFloat balance d := by
  unfold bigIntFloat
  split
  · exact le_refl 0
  · exact roundSig_nonneg _ (div_nonneg
      (roundSig_nonneg _ (by exact_mod_cast h))
      (roundSig_nonneg _ (by exact_mod_cast bigPow_ten_nonneg d)))

theorem fmtF_shape (v : ℚ) (d : ℕ) (hv : 0 ≤ v) (hd : d ≠ 0) :
    fmtF v d = natChars ((rhe (|v| * 10 ^ d)).toNat / 10 ^ d) ++
      '.' :: padLeft0 d ((rhe (|v| * 10 ^ d)).toNat % 10 ^ d) := by
  unfold fmtF
  rw [if_neg hd, if_neg (not_lt.mpr hv)]
  simp

theorem bigIntFloat_zero (d : ℤ) : bigIntFloat 0 d = 0 := by
  unfold bigIntFloat
  simp

unseal Rat.mul Rat.add Rat.sub Rat.inv in
theorem rhe_zero : rhe 0 = 0 := by decide

theorem trim_zero_dot (m : ℕ) :
    trimRight0 ('0' :: '.' :: List.replicate m '0') = ['0', '.'] := by
  unfold trimRight0
  rw [show ('0' :: '.' :: List.replicate m '0').reverse
      = List.replicate m '0' ++ ['.', '0'] by simp]
  rw [List.dropWhile_append]
  simp [List.dropWhile_replicate]

theorem fmtF_zero (d : ℕ) (hd : d ≠ 0) : fmtF 0 d = '0' :: '.' :: List.replicate d '0' := by
  obtain ⟨k, rfl⟩ : ∃ k, d = k + 1 := ⟨d - 1, by omega⟩
  unfold fmtF
  rw [if_neg hd, if_neg (lt_irrefl 0)]
  rw [show |(0 : ℚ)| * 10 ^ (k + 1) = 0 by simp]
  rw [rhe_zero]
  simp [natChars, padLeft0, List.replicate_succ']

/-- Claim C7: for every non-negative raw value and decimals count `d ≥ 1`,
`bigIntString` succeeds (no panic in `clean`) and the trimmed rendering
never starts with `'.'` and never ends with `'.'`. -/
theorem C7_trimmed_shape : ∀ (raw d : ℤ), 0 ≤ raw → 1 ≤ d →
    bigIntString raw d ≠ none ∧
    ∀ r, bigIntString raw d = some r → r.head? ≠ some '.' ∧ r.getLast? ≠ some '.' := by
  intro raw d hr hd
  have hd' : d.toNat ≠ 0 := by omega
  have hv : 0 ≤ bigIntFloat raw d := bigIntFloat_nonneg d hr
  have hshape := fmtF_shape (bigIntFloat raw d) d.toNat hv hd'
  obtain ⟨r0, hr0, hne, hh, hl⟩ :=
    clean_intfrac _ _ (natChars_ne_nil _) (natChars_ne_dot _) (padLeft0_ne_dot _ _)
  constructor
  · unfold bigIntString
    rw [hshape, hr0]
    simp
  · intro r hr'
    unfold bigIntString at hr'
    rw [hshape, hr0] at hr'
    injection hr' with hr''
    exact hr'' ▸ ⟨hh, hl⟩

set_option maxRecDepth 10000 in
unseal Rat.mul Rat.add Rat.sub Rat.inv in
/-- Claim C7 witness at raw = 5, d = 2 (rendering "0.05"). -/
theorem C7_trimmed_shape_witness :
    ((0 : ℤ) ≤ 5 ∧ (1 : ℤ) ≤ 2) ∧
    (['0', '.', '0', '5'].head? ≠ some '.' ∧ ['0', '.', '0', '5'].getLast? ≠ some '.') :=
  ⟨⟨by norm_num, by norm_num⟩,
   (C7_trimmed_shape 5 2 (by norm_num) (by norm_num)).2 ['0', '.', '0', '5']
     (by decide)⟩

/-- Claim C5: rendering the zero integer yields "0.0" through
`bigIntString` for every decimals count `d ≥ 1`, yields "0" through
`BalanceString` when decimals is 0, and `bigIntFloat` returns the
literal value 0 on the zero integer at every decimals count
(short-circuiting the division). -/
theorem C5_zero_rendering :
    (∀ d : ℤ, 1 ≤ d → bigIntString 0 d = some ['0', '.', '0']) ∧
    (∀ tb : TokenBalance, tb.Decimals = 0 → tb.Balance = some 0 →
      BalanceString tb = some ['0']) ∧
    (∀ d : ℤ, bigIntFloat 0 d = 0) := by
  refine ⟨?_, ?_, bigIntFloat_zero⟩
  · intro d hd
    unfold bigIntString
    rw [bigIntFloat_zero, fmtF_zero d.toNat (by omega)]
    simp [clean, trim_zero_dot]
  · intro tb h1 h2
    simp [BalanceString, h1, h2, intChars, natChars]


/-- Claim C5 witness at d = 18 (and d = 0 through `BalanceString`). -/
theorem C5_zero_rendering_witness :
    ((1 : ℤ) ≤ 18 ∧ bigIntString 0 18 = some ['0', '.', '0']) ∧
    BalanceString tbBalanceZero = some ['0'] ∧
    bigIntFloat 0 7 = 0 :=
  ⟨⟨by norm_num, C5_zero_rendering.1 18 (by norm_num)⟩,
   C5_zero_rendering.2.1 _ rfl rfl,
   C5_zero_rendering.2.2 7⟩

/-- Claim C6: with a decimals count of exactly 0, `BalanceString`
returns the raw integer's base-10 string verbatim, with no fractional
point anywhere in the result and no trimming applied. -/
theorem C6_zero_decimals_verbatim : ∀ (tb : TokenBalance) (b : ℤ),
    tb.Decimals = 0 → tb.Balance = some b →
    BalanceString tb = some (intChars b) ∧ '.' ∉ intChars b := by
  intro tb b h1 h2
  constructor
  · simp [BalanceString, h1, h2]
  · intro hmem
    unfold intChars at hmem
    by_cases hb : b < 0
    · rw [if_pos hb] at hmem
      rcases List.mem_cons.mp hmem with h | h
      · exact absurd h (by decide)
      · exact natChars_ne_dot _ '.' h rfl
    · rw [if_neg hb] at hmem
      exact natChars_ne_dot _ '.' hmem rfl

/-- Claim C6 witness at balance 1500 with 0 decimals: the rendering is
the untrimmed digit string "1500". -/
theorem C6_zero_decimals_verbatim_witness :
    BalanceString tbBalance1500 = some (intChars 1500) ∧ '.' ∉ intChars 1500 :=
  C6_zero_decimals_verbatim tbBalance1500 1500 rfl rfl

/-- Claim C2 counterexample: with the anchor read succeeding but the
decimals read failing while every later read would succeed,
`GetTokenBalance` does not return a nil error and does not populate
balance, symbol or name: it aborts with the decimals error. -/
theorem C2_decimals_counterexample :
    (GetTokenBalance "0xC" "0xW" oracleDecimalsFail).2 = some "no decimals" ∧
    (GetTokenBalance "0xC" "0xW" oracleDecimalsFail).1.Decimals = -1 ∧
    (GetTokenBalance "0xC" "0xW" oracleDecimalsFail).1.Symbol = "" ∧
    (GetTokenBalance "0xC" "0xW" oracleDecimalsFail).1.Name = "" ∧
    (GetTokenBalance "0xC" "0xW" oracleDecimalsFail).1.Balance = none := by
  refine ⟨rfl, rfl, rfl, rfl, rfl⟩

/-- Claim C2 as amended: when the anchor read succeeds but the decimals
read fails, `GetTokenBalance` returns the partially built report (with
the decimals sentinel -1 and the balance, native-balance, symbol and
name fields still at their zero values) together with a non-nil error:
the decimals failure aborts the remaining steps instead of degrading
only that field. -/
theorem C2_decimals_aborts : ∀ (c w : String) (o : EthOracle) (bn : ℤ) (e : String),
    o.newTokenCaller = .ok () → o.blockByNumber = .ok bn → o.decimals = .error e →
    GetTokenBalance c w o =
      ({ Contract := c, Wallet := w, Name := "", Symbol := "", Balance := none,
         ETH := none, Decimals := -1, Block := bn, InternalUserId := -1 }, some e) := by
  intro c w o bn e h1 h2 h3
  simp [GetTokenBalance, h1, h2, h3]

/-- Claim C2 amended-form witness on the concrete decimals-failure oracle. -/
theorem C2_decimals_aborts_witness :
    GetTokenBalance "0xC" "0xW" oracleDecimalsFail =
      ({ Contract := "0xC", Wallet := "0xW", Name := "", Symbol := "",
         Balance := none, ETH := none, Decimals := -1, Block := 100,
         InternalUserId := -1 }, some "no decimals") :=
  C2_decimals_aborts "0xC" "0xW" oracleDecimalsFail 100 "no decimals" rfl rfl rfl

/-- Claim C3 evaluation: on a symbol-read failure with the EOS contract
address, the running code sets Symbol to "MISSING", because
`init_token_types` is never invoked (it is not Go's automatic `init`)
and the fallback scans the still-nil `token_list`; had the table been
installed, `symbolFix` would have returned "EOS" for that address, and
for an address absent from the table it returns "MISSING". -/
theorem C3_symbol_fallback_eval :
    (GetTokenBalance eosAddr "0xW" oracleSymbolFail).2 = none ∧
    (GetTokenBalance eosAddr "0xW" oracleSymbolFail).1.Symbol = "MISSING" ∧
    symbolFix init_token_types eosAddr = "EOS" ∧
    symbolFix init_token_types "0x0000000000000000000000000000000000000001" = "MISSING" ∧
    symbolFix token_list_runtime eosAddr = "MISSING" := by
  refine ⟨rfl, ?_, ?_, ?_, rfl⟩ <;> decide

/-- Claim C4 counterexample: the anchor read is not the only sub-read
whose failure propagates as an error — here the anchor read succeeds
(block 100) and yet the fetch returns a non-nil error, caused by the
decimals read. -/
theorem C4_only_anchor_counterexample :
    oracleDecimalsFail.blockByNumber = .ok 100 ∧
    (GetTokenBalance "0xC" "0xW" oracleDecimalsFail).2 ≠ none := by
  refine ⟨rfl, ?_⟩
  decide

/-- Claim C4 as amended: an anchor-read failure returns the untouched
initial report together with a non-nil error, before any of the
decimals, native-balance, token-balance, symbol or name reads take
effect; but the anchor is not the only propagating sub-read — the
decimals read's failure also propagates, while failures of the
remaining four reads never do. -/
theorem C4_anchor_abort :
    (∀ (c w : String) (o : EthOracle) (e : String),
      o.newTokenCaller = .ok () → o.blockByNumber = .error e →
      GetTokenBalance c w o =
        ({ Contract := c, Wallet := w, Name := "", Symbol := "", Balance := none,
           ETH := none, Decimals := -1, Block := 0, InternalUserId := -1 }, some e)) ∧
    (∀ (c w : String) (o : EthOracle) (bn dv : ℤ),
      o.newTokenCaller = .ok () → o.blockByNumber = .ok bn → o.decimals = .ok dv →
      (GetTokenBalance c w o).2 = none) ∧
    (∀ (c w : String) (o : EthOracle) (bn : ℤ) (e : String),
      o.newTokenCaller = .ok () → o.blockByNumber = .ok bn → o.decimals = .error e →
      (GetTokenBalance c w o).2 = some e) := by
  refine ⟨?_, ?_, ?_⟩
  · intro c w o e h1 h2
    simp [GetTokenBalance, h1, h2]
  · intro c w o bn dv h1 h2 h3
    cases h4 : o.balanceAt <;> cases h5 : o.balanceOf <;> cases h6 : o.symbol <;>
      cases h7 : o.tokname <;>
      simp [GetTokenBalance, h1, h2, h3, h4, h5, h6, h7]
  · intro c w o bn e h1 h2 h3
    simp [GetTokenBalance, h1, h2, h3]

/-- Claim C4 amended-form witness on the concrete anchor-failure and
decimals-failure oracles. -/
theorem C4_anchor_abort_witness :
    GetTokenBalance "0xC" "0xW" oracleAnchorFail =
      ({ Contract := "0xC", Wallet := "0xW", Name := "", Symbol := "",
         Balance := none, ETH := none, Decimals := -1, Block := 0,
         InternalUserId := -1 }, some "no block") ∧
    (GetTokenBalance "0xC" "0xW" oracleAllOk).2 = none :=
  ⟨C4_anchor_abort.1 "0xC" "0xW" oracleAnchorFail "no block" rfl rfl,
   C4_anchor_abort.2.1 "0xC" "0xW" oracleAllOk 100 18 rfl rfl rfl⟩

/-- Claim C9: a report whose ETH field is nil cannot be rendered:
`ETHString` (and `ToJSON`, which calls it) hits the nil dereference of
`balance.Sign()` inside `bigIntFloat` and panics; and `GetTokenBalance`
deliberately leaves `ETH` nil (with a nil error) when only the
native-balance read fails, so that report panics in `ETHString`. -/
theorem C9_nil_eth_panics :
    (∀ tb : TokenBalance, tb.ETH = none → ETHString tb = none ∧ ToJSON tb = none) ∧
    (∀ (c w : String) (o : EthOracle) (bn dv : ℤ) (e : String),
      o.newTokenCaller = .ok () → o.blockByNumber = .ok bn → o.decimals = .ok dv →
      o.balanceAt = .error e →
      (GetTokenBalance c w o).2 = none ∧ (GetTokenBalance c w o).1.ETH = none ∧
      ETHString (GetTokenBalance c w o).1 = none) := by
  constructor
  · intro tb h
    have he : ETHString tb = none := by
      simp [ETHString, bigIntStringP, bigIntFloatP, h]
    refine ⟨he, ?_⟩
    cases hb : BalanceString tb <;> simp [ToJSON, jsonPairs, he, hb]
  · intro c w o bn dv e h1 h2 h3 h4
    cases h5 : o.balanceOf <;> cases h6 : o.symbol <;> cases h7 : o.tokname <;>
      simp [GetTokenBalance, ETHString, bigIntStringP, bigIntFloatP,
        h1, h2, h3, h4, h5, h6, h7]

/-- Claim C9 witness on the concrete native-balance-failure oracle. -/
theorem C9_nil_eth_panics_witness :
    (GetTokenBalance "0xC" "0xW" oracleEthFail).2 = none ∧
    (GetTokenBalance "0xC" "0xW" oracleEthFail).1.ETH = none ∧
    ETHString (GetTokenBalance "0xC" "0xW" oracleEthFail).1 = none :=
  C9_nil_eth_panics.2 "0xC" "0xW" oracleEthFail 100 18 "no eth balance" rfl rfl rfl rfl

/-- Claim C10: every return of `GetTokenBalance` carries the
caller-supplied contract and wallet addresses and the internal-id
sentinel -1, and any return taken before the decimals read succeeds
(instantiation, anchor, or decimals failure) still carries the
unknown-decimals sentinel -1 rather than 0. -/
theorem C10_report_identity : ∀ (c w : String) (o : EthOracle),
    (GetTokenBalance c w o).1.Contract = c ∧
    (GetTokenBalance c w o).1.Wallet = w ∧
    (GetTokenBalance c w o).1.InternalUserId = -1 ∧
    ((o.newTokenCaller.isOk = false ∨ o.blockByNumber.isOk = false ∨
      o.decimals.isOk = false) → (GetTokenBalance c w o).1.Decimals = -1) := by
  intro c w o
  cases h1 : o.newTokenCaller <;> cases h2 : o.blockByNumber <;>
    cases h3 : o.decimals <;> cases h4 : o.balanceAt <;> cases h5 : o.balanceOf <;>
    cases h6 : o.symbol <;> cases h7 : o.tokname <;>
    simp [GetTokenBalance, h1, h2, h3, h4, h5, h6, h7, Except.isOk, Except.toBool]

/-- Claim C10 witness on the concrete decimals-failure oracle. -/
theorem C10_report_identity_witness :
    (GetTokenBalance "0xC" "0xW" oracleDecimalsFail).1.Contract = "0xC" ∧
    (GetTokenBalance "0xC" "0xW" oracleDecimalsFail).1.Wallet = "0xW" ∧
    (GetTokenBalance "0xC" "0xW" oracleDecimalsFail).1.InternalUserId = -1 ∧
    (GetTokenBalance "0xC" "0xW" oracleDecimalsFail).1.Decimals = -1 :=
  ⟨(C10_report_identity "0xC" "0xW" oracleDecimalsFail).1,
   (C10_report_identity "0xC" "0xW" oracleDecimalsFail).2.1,
   (C10_report_identity "0xC" "0xW" oracleDecimalsFail).2.2.1,
   (C10_report_identity "0xC" "0xW" oracleDecimalsFail).2.2.2 (Or.inr (Or.inr rfl))⟩

set_option maxRecDepth 100000 in
unseal Rat.mul Rat.add Rat.sub Rat.inv in
/-- Claim C1 evaluation at the failing input raw = 10^18 + 1 (one ETH
plus one wei), d = 18: the code renders "1.0", because the
`big.Float` intermediates carry only 53 significand bits and
`SetInt` rounds 10^18 + 1 down to 10^18; the claim's round-trip
reconstruction of "1.0" therefore gives 10^18, not the original raw
value, contradicting the required exactness. -/
theorem C1_float_rounding_eval :
    bigIntString ((10 : ℤ) ^ 18 + 1) 18 = some ['1', '.', '0'] ∧
    decodeDecimal ['1', '.', '0'] 18 = (10 : ℤ) ^ 18 ∧
    decodeDecimal ['1', '.', '0'] 18 ≠ (10 : ℤ) ^ 18 + 1 :=
  ⟨by decide, by decide, by decide⟩

set_option maxRecDepth 100000 in
unseal Rat.mul Rat.add Rat.sub Rat.inv in
/-- Claim C8 counterexample: a report whose Name and Symbol carry the
"MISSING" sentinel still serialises both fields — `omitempty` omits
only empty strings, so "MISSING" is not omitted. -/
theorem C8_missing_not_omitted :
    tbMissingMeta.Name = "MISSING" ∧ tbMissingMeta.Symbol = "MISSING" ∧
    jsonPairs tbMissingMeta =
      some [("token", "\"0xC\""), ("wallet", "\"0xW\""), ("name", "\"MISSING\""),
        ("symbol", "\"MISSING\""), ("balance", "\"7\""), ("eth_balance", "\"0.0\""),
        ("decimals", "0"), ("block", "3")] ∧
    ToJSON tbMissingMeta = some
      "\x7b\"token\":\"0xC\",\"wallet\":\"0xW\",\"name\":\"MISSING\",\"symbol\":\"MISSING\",\"balance\":\"7\",\"eth_balance\":\"0.0\",\"decimals\":0,\"block\":3\x7d" :=
  ⟨rfl, rfl, by decide, by decide⟩

/-- Claim C8 as amended: whenever the two string accessors succeed, the
serialization exposes exactly the fields token, wallet, name, symbol,
balance, eth_balance, decimals, block in that order, except that name
and symbol are omitted exactly when they are the empty string; the
"MISSING" sentinel is a non-empty string and is therefore serialised,
not omitted. -/
theorem C8_fields_and_omission : ∀ (tb : TokenBalance) (bal eth : List Char),
    BalanceString tb = some bal → ETHString tb = some eth →
    jsonPairs tb ≠ none ∧
    ∀ ps, jsonPairs tb = some ps →
      ps.map Prod.fst = ["token", "wallet"]
        ++ (if tb.Name = "" then [] else ["name"])
        ++ (if tb.Symbol = "" then [] else ["symbol"])
        ++ ["balance", "eth_balance", "decimals", "block"] := by
  intro tb bal eth h1 h2
  constructor
  · simp [jsonPairs, h1, h2]
  · intro ps hps
    by_cases hn : tb.Name = "" <;> by_cases hs : tb.Symbol = "" <;>
      simp [jsonPairs, h1, h2, hn, hs] at hps <;> simp [← hps, hn, hs]

set_option maxRecDepth 100000 in
unseal Rat.mul Rat.add Rat.sub Rat.inv in
/-- Claim C8 amended-form witness on the concrete report whose metadata
carries "MISSING": both fields appear among the serialised keys. -/
theorem C8_fields_and_omission_witness :
    jsonPairs tbMissingMeta ≠ none ∧
    [("token", "\"0xC\""), ("wallet", "\"0xW\""), ("name", "\"MISSING\""),
      ("symbol", "\"MISSING\""), ("balance", "\"7\""), ("eth_balance", "\"0.0\""),
      ("decimals", "0"), ("block", "3")].map Prod.fst =
      ["token", "wallet", "name", "symbol", "balance", "eth_balance",
       "decimals", "block"] :=
  ⟨(C8_fields_and_omission tbMissingMeta ['7'] ['0', '.', '0'] (by decide) (by decide)).1,
   by
    have h := (C8_fields_and_omission tbMissingMeta ['7'] ['0', '.', '0']
      (by decide) (by decide)).2
      [("token", "\"0xC\""), ("wallet", "\"0xW\""), ("name", "\"MISSING\""),
        ("symbol", "\"MISSING\""), ("balance", "\"7\""), ("eth_balance", "\"0.0\""),
        ("decimals", "0"), ("block", "3")] (by decide)
    rw [h]
    decide⟩
